import Mathlib

/-
  Verification of the AddressBook system (src/addressBook.py) against its
  natural-language specification.

  Shallow embedding, translated from the source:
  - a contact is a record of eight text fields (ContactPerson.__init__ stores
    them in a dict in declared order);
  - the store operations add_contact / edit_contact / delete_contact /
    search_by_city_or_state / sort_contacts_by_name / sort_contacts_by_city
    act on the ordered list of contacts of one address book;
  - the persistence layer (save_all_books / load_contacts) is modelled at the
    level of the text file content: saving produces the exact sequence of
    lines the code writes, loading folds the code's line parser over the
    split content;
  - the interactive loop of main is modelled as a step function on the
    registry (ordered association list of book name to contact list) plus a
    flag recording whether main invokes save_all_books after the operation.

  Strings are Lean strings; Char.toLower models Python str.lower and
  Char.isWhitespace models str.strip for the whitespace characters that can
  actually occur here (the source file only ever deals in text fields).
-/

/-- Contact record: the eight fields stored by ContactPerson.__init__
(src/addressBook.py lines 16-39), in declared order. All fields are text:
main reads each one with input(). -/
structure Contact where
  first_name : String
  last_name : String
  address : String
  city : String
  state : String
  zip_code : String
  phone_number : String
  email : String
  deriving DecidableEq, Repr

/-- Identity key of a contact: the (first_name, last_name) pair used by
add_contact, edit_contact and delete_contact. -/
def identityKey (c : Contact) : String × String :=
  (c.first_name, c.last_name)

/-- The match test used by the loops of edit_contact and delete_contact
(lines 191 and 215): equality on first and last name. -/
def keyMatch (c : Contact) (f l : String) : Bool :=
  c.first_name == f && c.last_name == l

/-- AddressBook.add_contact (lines 139-156): if some existing contact has the
same first and last name the list is returned unchanged and the Bool is false
(the code prints the duplicate warning); otherwise the contact is appended and
the Bool is true (the code prints the success message). -/
def addContact (contacts : List Contact) (c : Contact) : List Contact × Bool :=
  if contacts.any (fun e =>
      e.first_name == c.first_name && e.last_name == c.last_name) then
    (contacts, false)
  else
    (contacts ++ [c], true)

/-- The new_details dictionary passed to edit_contact: a partial record, one
optional value per contact field. main (lines 353-360) always supplies the six
non-key fields; edit_contact itself accepts any subset. -/
structure NewDetails where
  first_name : Option String := none
  last_name : Option String := none
  address : Option String := none
  city : Option String := none
  state : Option String := none
  zip_code : Option String := none
  phone_number : Option String := none
  email : Option String := none
  deriving DecidableEq, Repr

/-- Python dict.update applied to a full contact record: every field present
in the partial record overwrites, every absent field is kept. -/
def updateContact (c : Contact) (nd : NewDetails) : Contact where
  first_name := nd.first_name.getD c.first_name
  last_name := nd.last_name.getD c.last_name
  address := nd.address.getD c.address
  city := nd.city.getD c.city
  state := nd.state.getD c.state
  zip_code := nd.zip_code.getD c.zip_code
  phone_number := nd.phone_number.getD c.phone_number
  email := nd.email.getD c.email

/-- AddressBook.edit_contact (lines 178-201): scan for the first contact whose
first and last name match; if found, first force new_details["first_name"] and
new_details["last_name"] to the searched names (lines 192-193), then apply
dict.update to that contact in place and return True; otherwise return False
with the list unchanged. -/
def editContact : List Contact → String → String → NewDetails → List Contact × Bool
  | [], _, _, _ => ([], false)
  | c :: rest, f, l, nd =>
    if keyMatch c f l then
      (updateContact c { nd with first_name := some f, last_name := some l } :: rest, true)
    else
      let r := editContact rest f l nd
      (c :: r.1, r.2)

/-- Python list.remove: delete the first element equal to the argument (no-op
when the element is absent, a case the source never reaches). -/
def removeFirstEq [DecidableEq α] : List α → α → List α
  | [], _ => []
  | x :: rest, a => if x = a then rest else x :: removeFirstEq rest a

/-- AddressBook.delete_contact (lines 203-221): find the first contact whose
first and last name match and remove it with list.remove, returning True;
return False with the list unchanged when none matches. -/
def deleteContact (contacts : List Contact) (f l : String) : List Contact × Bool :=
  match contacts.find? (fun c => keyMatch c f l) with
  | some c => (removeFirstEq contacts c, true)
  | none => (contacts, false)

/-- Python truthiness of an optional string argument: None and the empty
string are falsy, every other string is truthy. -/
def pyTruthy : Option String → Bool
  | none => false
  | some s => !(s == "")

/-- AddressBook.search_by_city_or_state (lines 223-239): loop over the
contacts, appending each one for which (city and city matches
case-insensitively) or (state and state matches case-insensitively). -/
def searchByCityOrState (contacts : List Contact) (city state : Option String) :
    List Contact :=
  contacts.foldl
    (fun results c =>
      if (pyTruthy city && c.city.toLower == (city.getD "").toLower)
          || (pyTruthy state && c.state.toLower == (state.getD "").toLower) then
        results ++ [c]
      else
        results)
    []

/-- The comparison realised by Python list.sort with key (first_name,
last_name): lexicographic tuple order over code-point string order. -/
def nameLe (a b : Contact) : Bool :=
  decide (a.first_name < b.first_name)
    || (a.first_name == b.first_name && decide (a.last_name ≤ b.last_name))

/-- The comparison realised by Python list.sort with key city. -/
def cityLe (a b : Contact) : Bool :=
  decide (a.city ≤ b.city)

/-- AddressBook.sort_contacts_by_name (lines 254-259): stable sort by
(first_name, last_name). Python list.sort is stable; List.mergeSort is the
stable sort of the Lean library. -/
def sortByName (contacts : List Contact) : List Contact :=
  contacts.mergeSort nameLe

/-- AddressBook.sort_contacts_by_city (lines 261-266): stable sort by city. -/
def sortByCity (contacts : List Contact) : List Contact :=
  contacts.mergeSort cityLe

/- Concrete contacts used as inputs of witnesses and counterexamples. -/

def cJohn : Contact :=
  ⟨"John", "Doe", "12 Oak St", "Boston", "MA", "02101", "5551234", "john@x.com"⟩

def cJohnSeattle : Contact :=
  ⟨"John", "Doe", "9 Pine Ave", "Seattle", "WA", "98101", "5559876", "jd@y.com"⟩

def cMary : Contact :=
  ⟨"Mary", "Lamb", "3 Hill Rd", "Salem", "OR", "97301", "5550000", "mary@z.org"⟩

/- Persistence model.  save_all_books writes the file line by line; every
single write call emits exactly one line ending in a newline, so the model
records the sequence of written strings and the file content is their
concatenation.  load_contacts reads the file back line by line; the model
splits the content on the newline character and folds the parser of the
source over the lines. -/

/-- The registry of address books handled by main: an insertion-ordered
mapping from book name to contact list (Python dict of AddressBook). -/
abbrev Registry := List (String × List Contact)

/-- The lines save_all_books writes for one contact (lines 123-131): the
32-dash separator, then the eight fields as key colon value, every field but
email with a trailing comma. -/
def contactLines (c : Contact) : List String :=
  ["--------------------------------",
   "first_name: " ++ c.first_name ++ ",",
   "last_name: " ++ c.last_name ++ ",",
   "address: " ++ c.address ++ ",",
   "city: " ++ c.city ++ ",",
   "state: " ++ c.state ++ ",",
   "zip_code: " ++ c.zip_code ++ ",",
   "phone_number: " ++ c.phone_number ++ ",",
   "email: " ++ c.email]

/-- The lines save_all_books writes for one book (lines 120-132): the book
header, each contact, then one 34-dash separator. -/
def bookLines (b : String × List Contact) : List String :=
  ((b.1 ++ ":") :: b.2.flatMap contactLines) ++ ["----------------------------------"]

/-- All lines written by save_all_books (lines 116-132): the global header,
the underscore rule, then every book in registry order. -/
def saveLines (reg : Registry) : List String :=
  ["AddressBooks:", "_________________________"] ++ reg.flatMap bookLines

/-- The successive file.write arguments of save_all_books: each line plus its
newline. -/
def saveChunks (reg : Registry) : List String :=
  (saveLines reg).map (fun s => s ++ "\n")

/-- The full file content produced by a completed save_all_books call. -/
def serializeString (reg : Registry) : String :=
  String.join (saveChunks reg)

/-- The durable file content over time during save_all_books, starting from
previous content old: open(file, w) truncates the file in place (line 116),
then every write appends one chunk. -/
def saveTrace (old : String) (reg : Registry) : List String :=
  old :: List.scanl (fun a b => a ++ b) "" (saveChunks reg)

/-- A Python dictionary with string keys and values, as built by
load_contacts: an insertion-ordered association list. -/
abbrev PyDict := List (String × String)

/-- Python dict assignment d[k] = v: replace the value in place when the key
exists, append the pair otherwise.  The dictionaries built here always have
distinct keys, so replacing every occurrence of the key is faithful. -/
def dictSet (d : PyDict) (k v : String) : PyDict :=
  if d.any (fun p => p.1 == k) then
    d.map (fun p => if p.1 == k then (k, v) else p)
  else
    d ++ [(k, v)]

/- The string primitives of the loader are modelled over the character list
of the string, so that every definition is structurally recursive and fully
evaluable; each mirrors the corresponding Python str method. -/

/-- Python str.strip: remove leading and trailing whitespace. -/
def stripChars (l : List Char) : List Char :=
  ((l.dropWhile Char.isWhitespace).reverse.dropWhile Char.isWhitespace).reverse

/-- Python str.rstrip with a character set given as a predicate: remove every
trailing character satisfying it. -/
def dropTrailing (p : Char → Bool) (l : List Char) : List Char :=
  (l.reverse.dropWhile p).reverse

/-- Split on every occurrence of a separator character, like Python
str.split with a one-character separator (and like iterating the lines of a
file when the separator is the newline). -/
def splitOnChar (sep : Char) (l : List Char) : List (List Char) :=
  l.foldr
    (fun c acc =>
      match acc with
      | [] => [[c]]
      | h :: t => if c = sep then [] :: h :: t else (c :: h) :: t)
    [[]]

/-- Python line.split(colon, 1): the part before the first colon and the rest
of the line after it. -/
def splitFirstAtColon (l : List Char) : List Char × List Char :=
  (l.takeWhile (fun c => !(c == ':')), (l.dropWhile (fun c => !(c == ':'))).drop 1)

/-- The loop state of load_contacts: the contacts collected so far for the
requested book, the book the parser is currently inside, and the contact
being accumulated. -/
structure LoadState where
  contacts : List PyDict
  current_book : String
  current_contact : PyDict
  deriving DecidableEq, Repr

/-- One iteration of the line loop of load_contacts (lines 77-96): strip the
line; a line ending in a colon that is not a field line switches the current
book; inside the requested book, a first_name line flushes the pending
contact, and any line containing a colon stores key and value (value stripped
of surrounding whitespace and trailing commas). -/
def loadLine (name : String) (st : LoadState) (line : List Char) : LoadState :=
  let t := stripChars line
  if (t.getLast? == some ':') && !("first_name:".data.isPrefixOf t) then
    { st with current_book := String.mk (dropTrailing (fun c => c == ':') t) }
  else if st.current_book == name then
    let st1 :=
      if "first_name:".data.isPrefixOf t then
        { st with
          contacts :=
            if st.current_contact.isEmpty then st.contacts
            else st.contacts ++ [st.current_contact],
          current_contact := [] }
      else st
    if t.contains ':' then
      let kv := splitFirstAtColon t
      { st1 with
        current_contact :=
          dictSet st1.current_contact (String.mk (stripChars kv.1))
            (String.mk (dropTrailing (fun c => c == ',') (stripChars kv.2))) }
    else st1
  else st

/-- AddressBook.load_contacts (lines 66-105) applied to file content: fold the
line parser over the lines, then flush the pending contact when the parser is
still inside the requested book (lines 98-100). -/
def loadBook (content : String) (name : String) : List PyDict :=
  let st := (splitOnChar '\n' content.data).foldl (loadLine name) ⟨[], "", []⟩
  if !st.current_contact.isEmpty && st.current_book == name then
    st.contacts ++ [st.current_contact]
  else
    st.contacts

/-- The dictionary ContactPerson.__init__ builds from a full contact record,
which is also what a faithful load of a saved contact would reconstruct. -/
def details (c : Contact) : PyDict :=
  [("first_name", c.first_name), ("last_name", c.last_name),
   ("address", c.address), ("city", c.city), ("state", c.state),
   ("zip_code", c.zip_code), ("phone_number", c.phone_number),
   ("email", c.email)]

/- Model of the command loop of main (lines 287-441): each contact-level
operation acts on one named book of the registry and is followed (or not) by
a call to save_all_books, exactly as in the source.  The Bool of step records
whether main calls save_all_books after the operation. -/

/-- Look up the contact list of a named book. -/
def getBook (reg : Registry) (name : String) : Option (List Contact) :=
  (reg.find? (fun b => b.1 == name)).map (fun b => b.2)

/-- Replace the contact list of a named book, keeping registry order. -/
def setBook (reg : Registry) (name : String) (cs : List Contact) : Registry :=
  reg.map (fun b => if b.1 == name then (b.1, cs) else b)

/-- The mutating requests the menu loop of main can issue against the core. -/
inductive MOp where
  | add (book : String) (c : Contact)
  | edit (book : String) (f l : String) (nd : NewDetails)
  | del (book : String) (f l : String)
  | sortName (book : String)
  | sortCity (book : String)
  | sortAllName
  | sortAllCity
  deriving DecidableEq, Repr

/-- One iteration of the menu loop of main: apply the operation to the
registry and record whether main calls save_all_books afterwards.
Lines 331-332: add_contact is always followed by save_all_books, also on a
rejected duplicate.  Lines 361-362 and 369-370: save_all_books runs only if
edit_contact / delete_contact returned True.  Lines 372-378 and 425-435:
every sort is followed by save_all_books.  Operations on a book name absent
from the registry cannot arise in main (the book is created on selection);
they are modelled as doing nothing. -/
def step (reg : Registry) (op : MOp) : Registry × Bool :=
  match op with
  | .add bk c =>
    match getBook reg bk with
    | some cs => (setBook reg bk (addContact cs c).1, true)
    | none => (reg, false)
  | .edit bk f l nd =>
    match getBook reg bk with
    | some cs =>
      let r := editContact cs f l nd
      (setBook reg bk r.1, r.2)
    | none => (reg, false)
  | .del bk f l =>
    match getBook reg bk with
    | some cs =>
      let r := deleteContact cs f l
      (setBook reg bk r.1, r.2)
    | none => (reg, false)
  | .sortName bk =>
    match getBook reg bk with
    | some cs => (setBook reg bk (sortByName cs), true)
    | none => (reg, false)
  | .sortCity bk =>
    match getBook reg bk with
    | some cs => (setBook reg bk (sortByCity cs), true)
    | none => (reg, false)
  | .sortAllName => (reg.map (fun b => (b.1, sortByName b.2)), true)
  | .sortAllCity => (reg.map (fun b => (b.1, sortByCity b.2)), true)

/-- The registry together with the durable file content: when main calls
save_all_books the file is rewritten with the serialization of the current
registry, otherwise it is left as it was. -/
def stepD (s : Registry × String) (op : MOp) : Registry × String :=
  let r := step s.1 op
  (r.1, if r.2 then serializeString r.1 else s.2)

/- Definitions taken from the words of the specification, for comparison with
the behaviour of the source. -/

/-- Modelled from the spec: a search filter is supplied when it is present
and usable; per the observed interface an empty string is not a usable
filter value (see the empty-filter theorem below). -/
def suppliedFilter : Option String → Bool
  | none => false
  | some s => s != ""

/-- Modelled from the spec: a contact matches the search request when the
supplied city filter equals its city case-insensitively, or the supplied
state filter equals its state case-insensitively; an unsupplied filter
contributes no constraint. -/
def specMatches (city state : Option String) (c : Contact) : Bool :=
  (suppliedFilter city && c.city.toLower == (city.getD "").toLower)
    || (suppliedFilter state && c.state.toLower == (state.getD "").toLower)

/-- Modelled from the spec: the rendering the specification ascribes to a
contact, the eight fields in declared order as key colon value joined with
newlines. -/
def specRender (c : Contact) : String :=
  String.intercalate "\n" ((details c).map (fun p => p.1 ++ ": " ++ p.2))

/- Model of str(self.details), the actual rendering of ContactPerson.__str__
(line 48): the Python dict display.  The repr of a string picks single
quotes, or double quotes when the text contains a single quote and no double
quote, and escapes the backslash, the chosen quote, newline, carriage return
and tab; the hexadecimal escapes CPython uses for other non-printable
characters are outside the scope of this model. -/

def singleQuote : Char := Char.ofNat 39

def doubleQuoteChar : Char := Char.ofNat 34

/-- Escape one character of a string repr with quote character q. -/
def pyEscChar (q c : Char) : String :=
  if c = '\\' then "\\\\"
  else if c = q then "\\" ++ String.singleton q
  else if c = '\n' then "\\n"
  else if c = '\r' then "\\r"
  else if c = '\t' then "\\t"
  else String.singleton c

/-- Python repr of a string (printable fragment). -/
def pyReprStr (s : String) : String :=
  let q := if s.contains singleQuote && !s.contains doubleQuoteChar then
    doubleQuoteChar else singleQuote
  String.singleton q ++ String.join (s.data.map (pyEscChar q)) ++ String.singleton q

/-- Python str of a dict with string keys and values: repr of key, colon,
repr of value, comma-separated, inside braces. -/
def pyDictRepr (d : PyDict) : String :=
  "\x7b" ++ String.intercalate ", " (d.map (fun p => pyReprStr p.1 ++ ": " ++ pyReprStr p.2))
    ++ "\x7d"

/-- ContactPerson.__str__ (lines 41-48): str(self.details). -/
def contactStr (c : Contact) : String :=
  pyDictRepr (details c)

/-- The store-level operations of one address book, as named by the
specification: add, edit, delete and the two sorts. -/
inductive SOp where
  | add (c : Contact)
  | edit (f l : String) (nd : NewDetails)
  | del (f l : String)
  | sortName
  | sortCity
  deriving DecidableEq, Repr

/-- Effect of one store operation on the contact list. -/
def applySOp (contacts : List Contact) : SOp → List Contact
  | .add c => (addContact contacts c).1
  | .edit f l nd => (editContact contacts f l nd).1
  | .del f l => (deleteContact contacts f l).1
  | .sortName => sortByName contacts
  | .sortCity => sortByCity contacts

/-- The uniqueness invariant of a store: no two contacts share the
case-sensitive (first_name, last_name) identity key. -/
abbrev NoDupKey (contacts : List Contact) : Prop :=
  List.Pairwise (fun a b => a ≠ b) (contacts.map identityKey)

/- Helper lemmas. -/

/-- The append-only accumulator loop of search_by_city_or_state is a filter. -/
theorem foldl_append_filter (p : Contact → Bool) (l : List Contact) (acc : List Contact) :
    l.foldl (fun results c => if p c then results ++ [c] else results) acc
      = acc ++ l.filter p := by
  induction l generalizing acc with
  | nil => simp
  | cons c rest ih =>
    by_cases h : p c <;> simp [h, ih, List.filter_cons]

/- Claim theorems. -/

/-- C3: for every store state and contact c, if some contact already has the
identity key of c then add_contact leaves the contact list unchanged and
reports a duplicate (regardless of the other field values of c); otherwise it
appends c at the end, preserving the existing order, and reports success. -/
theorem addContact_spec (contacts : List Contact) (c : Contact) :
    ((∃ e ∈ contacts, identityKey e = identityKey c) →
        addContact contacts c = (contacts, false))
    ∧ ((¬ ∃ e ∈ contacts, identityKey e = identityKey c) →
        addContact contacts c = (contacts ++ [c], true)) := by
  have hiff :
      (contacts.any (fun e =>
          e.first_name == c.first_name && e.last_name == c.last_name) = true)
        ↔ ∃ e ∈ contacts, identityKey e = identityKey c := by
    simp [List.any_eq_true, identityKey, Prod.ext_iff]
  cases hx : contacts.any (fun e =>
      e.first_name == c.first_name && e.last_name == c.last_name) with
  | true =>
    refine ⟨fun _ => ?_, fun hn => absurd (hiff.mp hx) hn⟩
    simp [addContact, hx]
  | false =>
    refine ⟨fun h => ?_, fun _ => ?_⟩
    · rw [hiff.mpr h] at hx
      cases hx
    · simp [addContact, hx]

/-- Witness for C3 at concrete inputs: a second John Doe with different
fields is rejected without mutation; a fresh key is appended at the end. -/
theorem addContact_spec_witness :
    addContact [cJohn] cJohnSeattle = ([cJohn], false)
    ∧ addContact [cMary] cJohn = ([cMary, cJohn], true) :=
  ⟨(addContact_spec [cJohn] cJohnSeattle).1 (by decide),
   (addContact_spec [cMary] cJohn).2 (by decide)⟩

/-- C5: search returns exactly the contacts whose city matches the supplied
city case-insensitively or whose state matches the supplied state
case-insensitively, an unsupplied filter contributing no constraint; the
result is a filter of the store, so it preserves insertion order, and with
neither filter supplied it is empty. -/
theorem searchByCityOrState_spec (contacts : List Contact) (city state : Option String) :
    searchByCityOrState contacts city state = contacts.filter (specMatches city state)
    ∧ (∀ c, c ∈ searchByCityOrState contacts city state
          ↔ c ∈ contacts ∧ specMatches city state c = true)
    ∧ searchByCityOrState contacts none none = [] := by
  have hmain : ∀ ct st : Option String,
      searchByCityOrState contacts ct st = contacts.filter (specMatches ct st) := by
    intro ct st
    unfold searchByCityOrState
    rw [foldl_append_filter]
    refine (List.nil_append _).trans (List.filter_congr ?_)
    intro c _
    cases ct <;> cases st <;>
      simp [specMatches, suppliedFilter, pyTruthy, bne]
  refine ⟨hmain city state, fun c => ?_, ?_⟩
  · rw [hmain city state]
    simp [List.mem_filter]
  · rw [hmain none none]
    simp [specMatches, suppliedFilter]

/-- C10: an empty-string filter behaves exactly like an unsupplied filter,
because Python truthiness makes an empty string contribute no constraint; in
particular searching with both filters empty returns the empty list, even
when a contact has an empty city or state field. -/
theorem searchByCityOrState_empty_filter (contacts : List Contact) :
    (∀ state, searchByCityOrState contacts (some "") state
        = searchByCityOrState contacts none state)
    ∧ (∀ city, searchByCityOrState contacts city (some "")
        = searchByCityOrState contacts city none)
    ∧ searchByCityOrState contacts (some "") (some "") = [] := by
  refine ⟨fun state => ?_, fun city => ?_, ?_⟩
  · simp [searchByCityOrState, pyTruthy]
  · simp [searchByCityOrState, pyTruthy]
  · unfold searchByCityOrState
    rw [foldl_append_filter]
    simp [pyTruthy]

/-- Removing the element found by find? deletes exactly the position findIdx
points at: no earlier element can be equal to the found one, since the
predicate is false before the first hit and true at it. -/
theorem removeFirstEq_find? (p : Contact → Bool) (l : List Contact) (c : Contact)
    (h : l.find? p = some c) :
    removeFirstEq l c = l.take (l.findIdx p) ++ l.drop (l.findIdx p + 1) := by
  induction l with
  | nil => simp at h
  | cons a rest ih =>
    rw [List.find?_cons] at h
    cases hpa : p a with
    | true =>
      rw [hpa] at h
      have hac : a = c := by simpa using h
      subst hac
      simp [removeFirstEq, List.findIdx_cons, hpa]
    | false =>
      rw [hpa] at h
      have hpc : p c = true := List.find?_some h
      have hne : a ≠ c := by
        intro he
        rw [he, hpc] at hpa
        cases hpa
      simp [removeFirstEq, hne, List.findIdx_cons, hpa, ih h,
        List.take_succ_cons, List.drop_succ_cons]

/-- C7: delete removes exactly the first contact in insertion order whose
identity key matches, keeping all other contacts in their relative order (the
prefix before it and the suffix after it), and reports success; when no
contact matches it reports failure and the store, hence its contact count, is
unchanged. -/
theorem deleteContact_spec (contacts : List Contact) (f l : String) :
    ((∀ c ∈ contacts, keyMatch c f l = false) →
        deleteContact contacts f l = (contacts, false))
    ∧ (contacts.findIdx (fun c => keyMatch c f l) < contacts.length →
        deleteContact contacts f l
          = (contacts.take (contacts.findIdx (fun c => keyMatch c f l))
              ++ contacts.drop (contacts.findIdx (fun c => keyMatch c f l) + 1),
             true)) := by
  constructor
  · intro h
    have hnone : contacts.find? (fun c => keyMatch c f l) = none :=
      List.find?_eq_none.mpr (fun x hx => by simp [h x hx])
    simp [deleteContact, hnone]
  · intro h
    obtain ⟨x, hx, hpx⟩ := List.findIdx_lt_length.mp h
    cases hfind : contacts.find? (fun c => keyMatch c f l) with
    | none => exact absurd hpx (List.find?_eq_none.mp hfind x hx)
    | some c => simp [deleteContact, hfind, removeFirstEq_find? _ _ _ hfind]

/-- Witness for C7 at concrete inputs: deleting an absent key leaves the
single-contact store unchanged with failure; deleting Mary Lamb from a
two-contact store removes exactly her entry with success. -/
theorem deleteContact_spec_witness :
    deleteContact [cJohn] "Mary" "Lamb" = ([cJohn], false)
    ∧ deleteContact [cJohn, cMary] "Mary" "Lamb" = ([cJohn], true) := by
  constructor
  · exact (deleteContact_spec [cJohn] "Mary" "Lamb").1 (by decide)
  · have h2 := (deleteContact_spec [cJohn, cMary] "Mary" "Lamb").2 (by decide)
    rw [h2]
    decide

/-- C6 counterexample: with the single contact John Doe in the store, editing
John Doe with partial_fields naming first_name with the value Zed does not
overwrite that field with the supplied value: edit_contact forces the
first_name and last_name entries of new_details back to the searched key
before updating, so the store is left exactly as it was, with first_name
John, although the claim requires every field named in partial_fields to be
overwritten with the supplied value. -/
theorem editContact_claim_counterexample :
    (editContact [cJohn] "John" "Doe" { first_name := some "Zed" }).1 = [cJohn]
    ∧ cJohn.first_name = "John"
    ∧ ("John" : String) ≠ "Zed" := by decide

/-- The found case of edit_contact: the contact at position findIdx is
replaced by its update with the forced key, everything else is untouched. -/
theorem editContact_found (contacts : List Contact) (f l : String)
    (nd : NewDetails) (x : Contact)
    (hx : contacts[contacts.findIdx (fun c => keyMatch c f l)]? = some x) :
    editContact contacts f l nd
      = (contacts.take (contacts.findIdx (fun c => keyMatch c f l))
          ++ updateContact x { nd with first_name := some f, last_name := some l }
            :: contacts.drop (contacts.findIdx (fun c => keyMatch c f l) + 1),
         true) := by
  induction contacts with
  | nil => simp at hx
  | cons a rest ih =>
    cases hpa : keyMatch a f l with
    | true =>
      rw [List.findIdx_cons, hpa] at hx ⊢
      have hax : a = x := by simpa using hx
      subst hax
      simp [editContact, hpa]
    | false =>
      rw [List.findIdx_cons, hpa] at hx ⊢
      have hx2 : rest[rest.findIdx (fun c => keyMatch c f l)]? = some x := by
        simpa using hx
      simp [editContact, hpa, ih hx2, List.take_succ_cons, List.drop_succ_cons]

/-- C6 amended: edit updates exactly the first contact in insertion order
whose identity key matches: the fields named in partial_fields other than
first_name and last_name are overwritten with the supplied values, while the
first_name and last_name entries are always forced back to the searched key
(so the identity key of the contact never changes, whatever partial_fields
says for those two fields); fields not named are untouched, all other
contacts are unchanged, and success is reported.  When no contact matches,
failure is reported and the store is unchanged. -/
theorem editContact_spec (contacts : List Contact) (f l : String) (nd : NewDetails) :
    ((∀ c ∈ contacts, keyMatch c f l = false) →
        editContact contacts f l nd = (contacts, false))
    ∧ (∀ x, contacts[contacts.findIdx (fun c => keyMatch c f l)]? = some x →
        editContact contacts f l nd
          = (contacts.take (contacts.findIdx (fun c => keyMatch c f l))
              ++ updateContact x { nd with first_name := some f, last_name := some l }
                :: contacts.drop (contacts.findIdx (fun c => keyMatch c f l) + 1),
             true)) := by
  constructor
  · intro h
    induction contacts with
    | nil => simp [editContact]
    | cons a rest ih =>
      have hpa : keyMatch a f l = false := h a (by simp)
      have ihh := ih (fun c hc => h c (by simp [hc]))
      simp [editContact, hpa, ihh]
  · intro x hx
    exact editContact_found contacts f l nd x hx

/-- Witness for C6 at concrete inputs: editing an absent key fails without
mutation; editing Mary Lamb with a new city updates exactly her record. -/
theorem editContact_spec_witness :
    editContact [cJohn] "Mary" "Lamb" { city := some "Paris" } = ([cJohn], false)
    ∧ editContact [cJohn, cMary] "Mary" "Lamb" { city := some "Paris" }
        = ([cJohn,
            ⟨"Mary", "Lamb", "3 Hill Rd", "Paris", "OR", "97301", "5550000",
             "mary@z.org"⟩], true) := by
  constructor
  · exact (editContact_spec [cJohn] "Mary" "Lamb" { city := some "Paris" }).1
      (by decide)
  · have h2 := (editContact_spec [cJohn, cMary] "Mary" "Lamb"
      { city := some "Paris" }).2 cMary (by decide)
    rw [h2]
    decide

/-- edit_contact never changes the sequence of identity keys: the replaced
contact keeps its key, since new_details is forced to the searched names and
the matched contact already carries them. -/
theorem editContact_map_key (contacts : List Contact) (f l : String) (nd : NewDetails) :
    ((editContact contacts f l nd).1).map identityKey = contacts.map identityKey := by
  induction contacts with
  | nil => rfl
  | cons a rest ih =>
    cases hpa : keyMatch a f l with
    | true =>
      have h1 : a.first_name = f ∧ a.last_name = l := by
        simpa [keyMatch] using hpa
      simp [editContact, hpa, identityKey, updateContact, h1.1, h1.2]
    | false =>
      simp [editContact, hpa, ih]

/-- list.remove yields a sublist. -/
theorem removeFirstEq_sublist [DecidableEq α] (l : List α) (a : α) :
    (removeFirstEq l a).Sublist l := by
  induction l with
  | nil => simp [removeFirstEq]
  | cons x rest ih =>
    by_cases hx : x = a
    · simp only [removeFirstEq, if_pos hx]
      exact List.sublist_cons_self x rest
    · simp only [removeFirstEq, if_neg hx]
      exact List.Sublist.cons₂ x ih

/-- Each single store operation preserves the uniqueness invariant. -/
theorem applySOp_preserves_noDupKey (contacts : List Contact) (op : SOp)
    (h : NoDupKey contacts) : NoDupKey (applySOp contacts op) := by
  cases op with
  | add c =>
    show NoDupKey (addContact contacts c).1
    unfold addContact
    cases hx : contacts.any (fun e =>
        e.first_name == c.first_name && e.last_name == c.last_name) with
    | true => simpa [hx] using h
    | false =>
      have hall : ∀ e ∈ contacts, identityKey e ≠ identityKey c := by
        intro e he heq
        have : contacts.any (fun e =>
            e.first_name == c.first_name && e.last_name == c.last_name) = true := by
          refine List.any_eq_true.mpr ⟨e, he, ?_⟩
          have h1 : e.first_name = c.first_name ∧ e.last_name = c.last_name := by
            simpa [identityKey, Prod.ext_iff] using heq
          simp [h1.1, h1.2]
        rw [this] at hx
        cases hx
      simp only [hx, Bool.false_eq_true, if_false]
      show List.Pairwise (fun a b => a ≠ b) ((contacts ++ [c]).map identityKey)
      rw [List.map_append]
      refine List.pairwise_append.mpr ⟨h, by simp, ?_⟩
      intro a ha b hb
      simp only [List.map_cons, List.map_nil, List.mem_singleton] at hb
      obtain ⟨e, he, rfl⟩ := List.mem_map.mp ha
      rw [hb]
      exact hall e he
  | edit f l nd =>
    show List.Pairwise (fun a b => a ≠ b) (((editContact contacts f l nd).1).map identityKey)
    rw [editContact_map_key]
    exact h
  | del f l =>
    show NoDupKey (deleteContact contacts f l).1
    unfold deleteContact
    cases hfind : contacts.find? (fun c => keyMatch c f l) with
    | none => exact h
    | some c =>
      exact List.Pairwise.sublist
        (List.Sublist.map identityKey (removeFirstEq_sublist contacts c)) h
  | sortName =>
    have hp := List.Perm.map identityKey (List.mergeSort_perm contacts nameLe)
    exact (List.Perm.pairwise_iff (fun hxy => Ne.symm hxy) hp).mpr h
  | sortCity =>
    have hp := List.Perm.map identityKey (List.mergeSort_perm contacts cityLe)
    exact (List.Perm.pairwise_iff (fun hxy => Ne.symm hxy) hp).mpr h

/-- C4: from any store state satisfying the uniqueness invariant, every
sequence of add, edit, delete and sort operations leads only to states
satisfying it: no two contacts in the same store ever share the same
case-sensitive (first_name, last_name) identity key. -/
theorem noDupKey_invariant (ops : List SOp) (contacts : List Contact)
    (h : NoDupKey contacts) : NoDupKey (ops.foldl applySOp contacts) := by
  induction ops generalizing contacts with
  | nil => exact h
  | cons op rest ih => exact ih _ (applySOp_preserves_noDupKey contacts op h)

/-- Witness for C4 at a concrete input: a duplicate add, a fresh add, an
edit, a sort and a delete, starting from a one-contact store. -/
theorem noDupKey_invariant_witness :
    NoDupKey (List.foldl applySOp [cJohn]
      [SOp.add cJohnSeattle, SOp.add cMary,
       SOp.edit "Mary" "Lamb" { city := some "Paris" },
       SOp.sortName, SOp.del "John" "Doe"]) :=
  noDupKey_invariant _ [cJohn] (by decide)

/-- Left fold of append only extends its accumulator. -/
theorem foldl_append_ex (b : String) (l : List String) :
    ∃ u, List.foldl (fun r s => r ++ s) b l = b ++ u := by
  induction l generalizing b with
  | nil => exact ⟨"", by simp⟩
  | cons x xs ih =>
    obtain ⟨u, hu⟩ := ih (b ++ x)
    refine ⟨x ++ u, ?_⟩
    rw [List.foldl_cons, hu, String.append_assoc]

/-- Every intermediate state of the append scan is a prefix of the final
fold. -/
theorem scanl_append_prefix (b : String) (l : List String) :
    ∀ s ∈ List.scanl (fun r s => r ++ s) b l,
      ∃ u, s ++ u = List.foldl (fun r s => r ++ s) b l := by
  induction l generalizing b with
  | nil =>
    intro s hs
    rw [List.scanl_nil, List.mem_singleton] at hs
    exact ⟨"", by simp [hs]⟩
  | cons x xs ih =>
    intro s hs
    rw [List.scanl_cons, List.singleton_append, List.mem_cons] at hs
    rw [List.foldl_cons]
    rcases hs with hs | hs
    · obtain ⟨u, hu⟩ := foldl_append_ex (b ++ x) xs
      exact ⟨x ++ u, by rw [hs, hu, String.append_assoc]⟩
    · exact ih (b ++ x) s hs

/-- The last state of the append scan is the final fold. -/
theorem scanl_append_getLast (b : String) (l : List String) :
    (List.scanl (fun r s => r ++ s) b l).getLast?
      = some (List.foldl (fun r s => r ++ s) b l) := by
  induction l generalizing b with
  | nil => simp [List.scanl_nil]
  | cons x xs ih =>
    rw [List.scanl_cons, List.foldl_cons]
    have h := ih (b ++ x)
    cases hsc : List.scanl (fun r s => r ++ s) (b ++ x) xs with
    | nil => simp [hsc] at h
    | cons y ys =>
      rw [hsc] at h
      rw [List.singleton_append, List.getLast?_cons_cons]
      exact h

/-- C2 counterexample: saving a new registry over the file of an old one
passes through the empty file content, produced by the truncating in-place
open, which is neither the complete old state nor the complete new one. -/
theorem saveTrace_claim_counterexample :
    "" ∈ saveTrace (serializeString [("A", [cJohn])]) [("A", [cJohn, cMary])]
    ∧ "" ≠ serializeString [("A", [cJohn])]
    ∧ "" ≠ serializeString [("A", [cJohn, cMary])] := by
  refine ⟨?_, by decide, by decide⟩
  exact List.mem_cons_of_mem _ (List.mem_cons_self _ _)

/-- C2 amended: save_all_books rewrites the durable file in place rather than
through a temporary file and an atomic rename: after the truncating open the
file successively holds every prefix of the new serialized registry (so an
external reader can observe a partial write, and a failure after the open can
leave a partial file instead of the prior state); the first observable state
is the prior content and the last is the complete new serialization. -/
theorem saveTrace_spec (old : String) (reg : Registry) :
    (∀ s ∈ (saveTrace old reg).tail, ∃ u, s ++ u = serializeString reg)
    ∧ (saveTrace old reg).head? = some old
    ∧ (saveTrace old reg).getLast? = some (serializeString reg) := by
  refine ⟨?_, rfl, ?_⟩
  · intro s hs
    exact scanl_append_prefix "" (saveChunks reg) s hs
  · have h := scanl_append_getLast "" (saveChunks reg)
    cases hsc : List.scanl (fun r s => r ++ s) "" (saveChunks reg) with
    | nil =>
      rw [hsc] at h
      simp at h
    | cons y ys =>
      rw [hsc] at h
      have htr : saveTrace old reg = old :: y :: ys := by
        unfold saveTrace
        rw [hsc]
      rw [htr, List.getLast?_cons_cons]
      exact h

/-- Witness for C2 amended at a concrete input: the state right after the
truncating open, the empty string, is a prefix of the final serialization,
and the trace starts from the prior content. -/
theorem saveTrace_spec_witness :
    (∃ u, "" ++ u = serializeString [("A", [cJohn])])
    ∧ (saveTrace "old" [("A", [cJohn])]).head? = some "old" :=
  ⟨(saveTrace_spec "old" [("A", [cJohn])]).1 "" (by decide),
   (saveTrace_spec "old" [("A", [cJohn])]).2.1⟩

/-- When edit_contact reports failure it has not touched the list. -/
theorem editContact_false_unchanged (contacts : List Contact) (f l : String)
    (nd : NewDetails) (h : (editContact contacts f l nd).2 = false) :
    (editContact contacts f l nd).1 = contacts := by
  induction contacts with
  | nil => rfl
  | cons a rest ih =>
    cases hpa : keyMatch a f l with
    | true => simp [editContact, hpa] at h
    | false =>
      simp only [editContact, hpa, Bool.false_eq_true, if_false] at h ⊢
      exact congrArg (a :: ·) (ih h)

/-- Rewriting a found book with its own contact list changes nothing, as long
as book names are unique (they are: the registry is a Python dict). -/
theorem setBook_self (reg : Registry) (bk : String) (cs : List Contact)
    (hnd : (reg.map Prod.fst).Nodup) (h : getBook reg bk = some cs) :
    setBook reg bk cs = reg := by
  induction reg with
  | nil => simp [getBook] at h
  | cons e rest ih =>
    rw [List.map_cons, List.nodup_cons] at hnd
    unfold getBook at h
    rw [List.find?_cons] at h
    cases he : (e.1 == bk) with
    | true =>
      rw [he] at h
      have hcs : e.2 = cs := by simpa using h
      have hebk : e.1 = bk := by simpa using he
      have hrest : ∀ r ∈ rest, (if r.1 == bk then (r.1, cs) else r) = r := by
        intro r hr
        rw [if_neg]
        intro hrb
        have hr1 : r.1 = bk := by simpa using hrb
        exact hnd.1 (List.mem_map.mpr ⟨r, hr, (hr1.trans hebk.symm)⟩)
      unfold setBook
      rw [List.map_cons, if_pos he, List.map_congr_left hrest]
      simp [← hcs]
    | false =>
      rw [he] at h
      unfold setBook
      rw [List.map_cons, if_neg (by simp [he])]
      exact congrArg (e :: ·) (ih hnd.2 h)

/-- Whenever main skips the save (the operation reported failure), the
registry is unchanged. -/
theorem step_false_unchanged (reg : Registry) (op : MOp)
    (hnd : (reg.map Prod.fst).Nodup) (h : (step reg op).2 = false) :
    (step reg op).1 = reg := by
  cases op with
  | add bk c =>
    cases hb : getBook reg bk with
    | some cs => simp [step, hb] at h
    | none => simp [step, hb]
  | edit bk f l nd =>
    cases hb : getBook reg bk with
    | none => simp [step, hb]
    | some cs =>
      simp only [step, hb] at h ⊢
      rw [editContact_false_unchanged cs f l nd h]
      exact setBook_self reg bk cs hnd hb
  | del bk f l =>
    cases hb : getBook reg bk with
    | none => simp [step, hb]
    | some cs =>
      simp only [step, hb] at h ⊢
      cases hfind : cs.find? (fun c => keyMatch c f l) with
      | some c => simp [deleteContact, hfind] at h
      | none =>
        rw [show (deleteContact cs f l).1 = cs by simp [deleteContact, hfind]]
        exact setBook_self reg bk cs hnd hb
  | sortName bk =>
    cases hb : getBook reg bk with
    | none => simp [step, hb]
    | some cs => simp [step, hb] at h
  | sortCity bk =>
    cases hb : getBook reg bk with
    | none => simp [step, hb]
    | some cs => simp [step, hb] at h
  | sortAllName => simp [step] at h
  | sortAllCity => simp [step] at h

/-- No operation changes the sequence of book names of the registry. -/
theorem step_names (reg : Registry) (op : MOp) :
    ((step reg op).1).map Prod.fst = reg.map Prod.fst := by
  have hset : ∀ bk cs, (setBook reg bk cs).map Prod.fst = reg.map Prod.fst := by
    intro bk cs
    unfold setBook
    rw [List.map_map]
    apply List.map_congr_left
    intro b _
    by_cases hb : b.1 = bk <;> simp [hb]
  cases op with
  | add bk c => cases hb : getBook reg bk <;> simp [step, hb, hset]
  | edit bk f l nd => cases hb : getBook reg bk <;> simp [step, hb, hset]
  | del bk f l => cases hb : getBook reg bk <;> simp [step, hb, hset]
  | sortName bk => cases hb : getBook reg bk <;> simp [step, hb, hset]
  | sortCity bk => cases hb : getBook reg bk <;> simp [step, hb, hset]
  | sortAllName => simp [step, List.map_map, Function.comp_def]
  | sortAllCity => simp [step, List.map_map, Function.comp_def]

/-- C8 counterexample: when the edit target is not found, main does not call
save_all_books at all (line 361 guards the save with the returned flag),
although the claim asserts that persistence is triggered before control
returns also in that case. -/
theorem step_claim_counterexample :
    (step [("A", [cJohn])] (MOp.edit "A" "Mary" "Lamb" {})).2 = false := by
  decide

/-- C8 amended: main triggers a full-registry save after every add (also a
rejected duplicate) and after every sort, and after edits and deletes that
found their target; when an edit or delete target is not found no save
occurs, but the registry is unchanged, so the durable content still reflects
the registry: starting from any state whose durable file equals the
serialization of its registry (with the unique book names of a Python dict),
every sequence of operations ends in a state whose durable file equals the
serialization of its registry. -/
theorem stepD_invariant (ops : List MOp) (reg : Registry) (d : String)
    (hnd : (reg.map Prod.fst).Nodup) (h : d = serializeString reg) :
    (ops.foldl stepD (reg, d)).2 = serializeString (ops.foldl stepD (reg, d)).1 := by
  induction ops generalizing reg d with
  | nil => simpa using h
  | cons op rest ih =>
    rw [List.foldl_cons]
    have hnd2 : (((stepD (reg, d) op).1).map Prod.fst).Nodup := by
      show (((step reg op).1).map Prod.fst).Nodup
      rw [step_names]
      exact hnd
    have hd2 : (stepD (reg, d) op).2 = serializeString (stepD (reg, d) op).1 := by
      cases hfl : (step reg op).2 with
      | true => simp [stepD, hfl]
      | false =>
        have hr := step_false_unchanged reg op hnd hfl
        simp [stepD, hfl, hr, h]
    simpa using ih (stepD (reg, d) op).1 (stepD (reg, d) op).2 hnd2 hd2

/-- Witness for C8 amended at a concrete input: a failed edit followed by an
add, starting from a freshly saved one-book registry. -/
theorem stepD_invariant_witness :
    (List.foldl stepD ([("A", [cJohn])], serializeString [("A", [cJohn])])
        [MOp.edit "A" "Mary" "Lamb" {}, MOp.add "A" cMary]).2
      = serializeString (List.foldl stepD
          ([("A", [cJohn])], serializeString [("A", [cJohn])])
          [MOp.edit "A" "Mary" "Lamb" {}, MOp.add "A" cMary]).1 :=
  stepD_invariant [MOp.edit "A" "Mary" "Lamb" {}, MOp.add "A" cMary]
    [("A", [cJohn])] (serializeString [("A", [cJohn])]) (by decide) rfl

/-- C9 counterexample: the rendering of a concrete contact is the single-line
Python dict display of str(self.details), not the eight key colon value lines
joined with newlines that the claim describes. -/
theorem contactStr_claim_counterexample :
    contactStr cJohn ≠ specRender cJohn := by decide

/-- C9 amended: the textual rendering of a contact lists the eight fields in
the fixed declared order, but as the Python dict display of str(self.details):
one line, each field as repr-quoted key, colon, repr-quoted value, the fields
separated by comma and space, the whole enclosed in braces. -/
theorem contactStr_spec (c : Contact) :
    contactStr c
      = "\x7b" ++ String.intercalate ", "
          [pyReprStr "first_name" ++ ": " ++ pyReprStr c.first_name,
           pyReprStr "last_name" ++ ": " ++ pyReprStr c.last_name,
           pyReprStr "address" ++ ": " ++ pyReprStr c.address,
           pyReprStr "city" ++ ": " ++ pyReprStr c.city,
           pyReprStr "state" ++ ": " ++ pyReprStr c.state,
           pyReprStr "zip_code" ++ ": " ++ pyReprStr c.zip_code,
           pyReprStr "phone_number" ++ ": " ++ pyReprStr c.phone_number,
           pyReprStr "email" ++ ": " ++ pyReprStr c.email] ++ "\x7d" := rfl

set_option maxRecDepth 100000

/-- C1: evaluation of the persistence round trip at the failing input.  With
two books, A holding one contact and B empty, the file written by
save_all_books loads back an empty contact list for A: the parser only
flushes a pending contact on the next first_name line, or at end of file if
the parser is still inside the requested book, so the last contact of every
book that is followed by another book header is dropped.  With A as the only
(hence last) book the same contact round-trips faithfully. -/
theorem save_load_drops_last_contact :
    loadBook (serializeString [("A", [cJohn]), ("B", [])]) "A" = []
    ∧ loadBook (serializeString [("A", [cJohn])]) "A" = [details cJohn] := by decide
